import Mathlib

set_option autoImplicit false

namespace NbIata

/-- JSON-like values as produced by `json.loads` in `src/client/app.py`.
Object fields keep insertion order, as Python dicts do. -/
inductive JValue where
  | null : JValue
  | bool : Bool → JValue
  | int : Int → JValue
  | str : String → JValue
  | obj : List (String × JValue) → JValue
  deriving Repr

mutual

def JValue.decEq : (a b : JValue) → Decidable (a = b)
  | .null, .null => .isTrue rfl
  | .null, .bool _ => .isFalse (fun h => JValue.noConfusion h)
  | .null, .int _ => .isFalse (fun h => JValue.noConfusion h)
  | .null, .str _ => .isFalse (fun h => JValue.noConfusion h)
  | .null, .obj _ => .isFalse (fun h => JValue.noConfusion h)
  | .bool _, .null => .isFalse (fun h => JValue.noConfusion h)
  | .bool x, .bool y =>
    if h : x = y then .isTrue (h ▸ rfl)
    else .isFalse (fun hh => h (JValue.bool.inj hh))
  | .bool _, .int _ => .isFalse (fun h => JValue.noConfusion h)
  | .bool _, .str _ => .isFalse (fun h => JValue.noConfusion h)
  | .bool _, .obj _ => .isFalse (fun h => JValue.noConfusion h)
  | .int _, .null => .isFalse (fun h => JValue.noConfusion h)
  | .int _, .bool _ => .isFalse (fun h => JValue.noConfusion h)
  | .int x, .int y =>
    if h : x = y then .isTrue (h ▸ rfl)
    else .isFalse (fun hh => h (JValue.int.inj hh))
  | .int _, .str _ => .isFalse (fun h => JValue.noConfusion h)
  | .int _, .obj _ => .isFalse (fun h => JValue.noConfusion h)
  | .str _, .null => .isFalse (fun h => JValue.noConfusion h)
  | .str _, .bool _ => .isFalse (fun h => JValue.noConfusion h)
  | .str _, .int _ => .isFalse (fun h => JValue.noConfusion h)
  | .str x, .str y =>
    if h : x = y then .isTrue (h ▸ rfl)
    else .isFalse (fun hh => h (JValue.str.inj hh))
  | .str _, .obj _ => .isFalse (fun h => JValue.noConfusion h)
  | .obj _, .null => .isFalse (fun h => JValue.noConfusion h)
  | .obj _, .bool _ => .isFalse (fun h => JValue.noConfusion h)
  | .obj _, .int _ => .isFalse (fun h => JValue.noConfusion h)
  | .obj _, .str _ => .isFalse (fun h => JValue.noConfusion h)
  | .obj xs, .obj ys =>
    match JValue.decEqFields xs ys with
    | .isTrue h => .isTrue (h ▸ rfl)
    | .isFalse h => .isFalse (fun hh => h (JValue.obj.inj hh))

def JValue.decEqFields : (xs ys : List (String × JValue)) → Decidable (xs = ys)
  | [], [] => .isTrue rfl
  | [], _ :: _ => .isFalse (fun h => List.noConfusion h)
  | _ :: _, [] => .isFalse (fun h => List.noConfusion h)
  | (k₁, v₁) :: t₁, (k₂, v₂) :: t₂ =>
    if hk : ¬ (k₁ = k₂) then
      .isFalse (fun hh => by
        injection hh with h1 h2
        injection h1 with hk2 hv
        exact hk hk2)
    else
      have hk : k₁ = k₂ := not_not.mp hk

      match JValue.decEq v₁ v₂ with
      | .isFalse h => .isFalse (fun hh => by
          injection hh with h1 h2
          injection h1 with hk hv
          exact h hv)
      | .isTrue hv =>
        match JValue.decEqFields t₁ t₂ with
        | .isFalse h => .isFalse (fun hh => by
            injection hh with h1 h2
            exact h h2)
        | .isTrue ht => .isTrue (by rw [hk, hv, ht])

end

instance : DecidableEq JValue := JValue.decEq

/-- A Python dict with keys of type `κ`, modelled as its ordered list of
key/value bindings (insertion order, no duplicate keys when built by
`dinsert` from empty). -/
abbrev PyDict (κ : Type) (α : Type) := List (κ × α)

variable {κ : Type} [DecidableEq κ] {α : Type}

/-- `d[k]` as an option: the binding for `k`, if any. -/
def dlookup : PyDict κ α → κ → Option α
  | [], _ => none
  | (k, v) :: t, key => if k = key then some v else dlookup t key

/-- `d[k] = v`: replace the value in place if the key is bound, else append. -/
def dinsert : PyDict κ α → κ → α → PyDict κ α
  | [], key, v => [(key, v)]
  | (k, w) :: t, key, v => if k = key then (k, v) :: t else (k, w) :: dinsert t key v

/-- `del d[k]`: drop the first binding of `k` (caller checks presence). -/
def derase : PyDict κ α → κ → PyDict κ α
  | [], _ => []
  | (k, v) :: t, key => if k = key then t else (k, v) :: derase t key

/-- `d.setdefault(k, v)`: bind `k` to `v` only when `k` is absent (Python
appends the new binding at the end). -/
def dsetdefault (d : PyDict κ α) (key : κ) (v : α) : PyDict κ α :=
  if (dlookup d key).isSome then d else d ++ [(key, v)]

/-- `d.keys()` in order. -/
def dkeys (d : PyDict κ α) : List κ := d.map Prod.fst

/-! ## Backend Descriptor Resolver (`get_backend_info` in `src/client/app.py`)

The network fetch and JSON decoding are abstracted into the function's
input: the HTTP status of the `GET <url>ws/info/` response and, when the
body parses, the parsed JSON object (a Python dict).  What remains is the
repository's own logic: the status check and the `setdefault` calls. -/

/-- Info dicts: string-keyed JSON objects as parsed by `json.loads`. -/
abbrev Info := PyDict String JValue

/-- The six `setdefault` calls of `get_backend_info`, in source order, with
the source's literal defaults. -/
def fillDefaults (info : Info) : Info :=
  let info := dsetdefault info "center"
    (JValue.obj [("latitude", JValue.str "0.0"), ("longitude", JValue.str "0.0")])
  let info := dsetdefault info "zoom" (JValue.int 1)
  let info := dsetdefault info "maxZoom" (JValue.int 1)
  let info := dsetdefault info "type" (JValue.str "cluster")
  let info := dsetdefault info "visible" (JValue.str "true")
  let info := dsetdefault info "scope" (JValue.str "all")
  info

/-- `get_backend_info`: on a 200 response whose body parsed as `body`,
return the default-filled info; on any other status the function falls off
the end and returns `None`. -/
def get_backend_info (status : Nat) (body : Info) : Option Info :=
  if status = 200 then some (fillDefaults body) else none

/-- The field names `get_backend_info` fills with defaults. -/
def defaultFields : List String :=
  ["center", "zoom", "maxZoom", "type", "visible", "scope"]

/-- The source's default value for each of the six fields. -/
def codeDefault : String → JValue
  | "center" => JValue.obj [("latitude", JValue.str "0.0"), ("longitude", JValue.str "0.0")]
  | "zoom" => JValue.int 1
  | "maxZoom" => JValue.int 1
  | "type" => JValue.str "cluster"
  | "visible" => JValue.str "true"
  | "scope" => JValue.str "all"
  | _ => JValue.null

/-! ## Discovery Loop (`poll_backends` in `src/client/app.py`)

One cycle resolves every configured endpoint, keeps the successful,
id-bearing descriptors keyed by `info['id']`, diffs the id set against the
previous registry, broadcasts remove then add events, and finally swaps
`backend_details`.  The network outcome of each `get_backend_info` call is
abstracted into a `Resolution` input. -/

structure Endpoint where
  name : String
  url : String
  deriving Repr, DecidableEq

/-- Outcome of `await get_backend_info(url)` for one endpoint: the call
raised (swallowed by `except Exception: pass`), returned `None` (non-200
status), or returned a default-filled info dict. -/
inductive Resolution where
  | failed : Resolution
  | unavailable : Resolution
  | resolved : Info → Resolution
  deriving Repr

/-- A registry entry: the `(name, url, info)` tuple stored in `details`. -/
abbrev RegEntry := String × String × Info

/-- The registry: the dict `details` / `backend_details`, keyed by the
value of `info['id']`. -/
abbrev Registry := PyDict JValue RegEntry

/-- The body of the `for name, url in endpoints` loop: a failed or
unavailable resolution, or an info without an `id` field, leaves `details`
untouched; otherwise `details[info['id']] = (name, url, info)`. -/
def pollStep (details : Registry) (ep : Endpoint × Resolution) : Registry :=
  match ep.2 with
  | .failed => details
  | .unavailable => details
  | .resolved info =>
    match dlookup info "id" with
    | none => details
    | some idv => dinsert details idv (ep.1.name, ep.1.url, info)

/-- The `details` dict at the end of the resolution loop. -/
def buildRegistry (eps : List (Endpoint × Resolution)) : Registry :=
  eps.foldl pollStep []

/-- The key/entry pair an endpoint contributes, when its resolution
succeeded with an id-bearing info. -/
def resolvedEntry (ep : Endpoint × Resolution) : Option (JValue × RegEntry) :=
  match ep.2 with
  | .resolved info =>
    (dlookup info "id").map (fun idv => (idv, (ep.1.name, ep.1.url, info)))
  | _ => none

/-- Insert a list of key/entry pairs in order. -/
def insertAll (d : Registry) (l : List (JValue × RegEntry)) : Registry :=
  l.foldl (fun d kv => dinsert d kv.1 kv.2) d

/-! ### The registry differ (`poll_backends`, lines 112–123)

`added` starts empty, `removed` starts as the previous registry's key set;
one pass over the new registry's keys removes each from `removed` and adds
those not previously known to `added`.  Python sets are modelled as
duplicate-free lists. -/

/-- Python `set.add`. -/
def pySetAdd (s : List κ) (x : κ) : List κ := if x ∈ s then s else s ++ [x]

/-- The diff pass of `poll_backends`: fold the new ids over the pair
`(added, removed)` initialised to `([], previous ids)`. -/
def pollDiff (prevKeys newKeys : List κ) : List κ × List κ :=
  newKeys.foldl
    (fun ar name =>
      let removed := if name ∈ ar.2 then ar.2.erase name else ar.2
      let added := if name ∈ prevKeys then ar.1 else pySetAdd ar.1 name
      (added, removed))
    ([], prevKeys)

/-! ## STOMP frames, sessions, the broadcast engine and `socks_backend` -/

/-- A parsed STOMP frame: command, headers dict, body.  For outbound
`MESSAGE` frames the body holds the JSON payload before `json.dumps`
serialisation; control frames carry no body (`null`). -/
structure Frame where
  command : String
  headers : PyDict String String
  body : JValue
  deriving Repr, DecidableEq

/-- A sockjs session as `broadcast_message` and `socks_backend` see it:
`session.id`, the `expired` flag, and the `subscriptions` dict.  The dict
is created only when a `CONNECT` frame is processed, so
`hasattr(session, 'subscriptions')` is modelled by the `Option`. -/
structure Session where
  id : String
  expired : Bool
  subscriptions : Option (PyDict String String)
  deriving Repr, DecidableEq

/-- The frame built for one recipient inside `broadcast_message`. -/
def mkMessageFrame (subscription msgId : String) (info : Info) : Frame :=
  { command := "MESSAGE"
    headers := [("subscription", subscription),
                ("content-type", "application/json"),
                ("message-id", msgId)]
    body := JValue.obj info }

/-- The per-session guard of `broadcast_message`: deliver only to a
non-expired session that has a `subscriptions` dict containing the topic;
the value found is that session's own subscription id. -/
def deliverCheck (topic : String) (s : Session) : Option String :=
  if s.expired then none
  else
    match s.subscriptions with
    | none => none
    | some subs => dlookup subs topic

/-- The session loop of `broadcast_message`; `uuid k` stands for the `k`-th
`str(uuid.uuid1())` drawn during the call. -/
def broadcastAux (uuid : Nat → String) (topic : String) (info : Info) :
    Nat → List Session → List (Session × Frame)
  | _, [] => []
  | k, s :: rest =>
    match deliverCheck topic s with
    | some sub =>
      (s, mkMessageFrame sub (uuid k) info) :: broadcastAux uuid topic info (k + 1) rest
    | none => broadcastAux uuid topic info k rest

/-- `broadcast_message(topic, info)` over the manager's session list:
the deliveries performed, as session/frame pairs. -/
def broadcast_message (uuid : Nat → String) (sessions : List Session)
    (topic : String) (info : Info) : List (Session × Frame) :=
  broadcastAux uuid topic info 0 sessions

/-- Python exceptions the `MSG_MESSAGE` branch of `socks_backend` can
raise: a missing dict key (`KeyError`) or a missing `subscriptions`
attribute (`AttributeError`, when no `CONNECT` was processed yet). -/
inductive PyError where
  | keyError : String → PyError
  | attributeError : String → PyError
  deriving Repr, DecidableEq

/-- The `MSG_MESSAGE` branch of `socks_backend` for one parsed frame:
the updated session together with the frames sent back on it, or the
exception raised.  A frame whose command matches no branch does nothing. -/
def handleMessage (s : Session) (frame : Frame) :
    Except PyError (Session × List Frame) :=
  if frame.command = "CONNECT" then
    .ok ({ s with subscriptions := some [] },
      [{ command := "CONNECTED", headers := [("session", s.id)], body := JValue.null }])
  else if frame.command = "SUBSCRIBE" then
    match dlookup frame.headers "id" with
    | none => .error (.keyError "id")
    | some subscription =>
      match dlookup frame.headers "destination" with
      | none => .error (.keyError "destination")
      | some dest =>
        match s.subscriptions with
        | none => .error (.attributeError "subscriptions")
        | some subs =>
          .ok ({ s with subscriptions := some (dinsert subs dest subscription) }, [])
  else if frame.command = "UNSUBSCRIBE" then
    match dlookup frame.headers "destination" with
    | none => .error (.keyError "destination")
    | some dest =>
      match s.subscriptions with
      | none => .error (.attributeError "subscriptions")
      | some subs =>
        match dlookup subs dest with
        | none => .error (.keyError dest)
        | some _ => .ok ({ s with subscriptions := some (derase subs dest) }, [])
  else .ok (s, [])

/-- Modelled from the spec: the transport dispatch around `socks_backend`
(the sockjs layer is outside `src/`).  §7 prescribes that a
`ProtocolError` discards the offending frame and "must not let one
session's malformed frame affect any other session", so an erroring
handler leaves every session unchanged and sends nothing; a normal result
replaces only the handling session. -/
def stepManager (sessions : List Session) (i : Nat) (frame : Frame) :
    List Session × List Frame :=
  match sessions[i]? with
  | none => (sessions, [])
  | some s =>
    match handleMessage s frame with
    | .error _ => (sessions, [])
    | .ok (s', out) => (sessions.set i s', out)

/-! ## One discovery cycle end to end -/

/-- The broadcast phase of one cycle: a `/topic/remove` event carrying the
previous entry's info for each removed id, then a `/topic/add` event
carrying the new entry's info for each added id, exactly as the two `for`
loops of `poll_backends` issue them. -/
def cycleEvents (prev details : Registry) : List (String × Info) :=
  let ar := pollDiff (dkeys prev) (dkeys details)
  ar.2.filterMap (fun k => (dlookup prev k).map (fun e => ("/topic/remove", e.2.2)))
    ++ ar.1.filterMap (fun k => (dlookup details k).map (fun e => ("/topic/add", e.2.2)))

/-- One full iteration of the `while True` loop of `poll_backends`, from
the current `backend_details`: build the new registry, issue the remove
then add broadcasts, and swap.  `sendOK` records each delivery's outcome;
modelled from the spec: `session.send` is fire-and-forget (§5) and a
`DeliveryError` stays local to its session (§7), so delivery outcomes flow
only into the outcome log, never back into the loop. -/
def runCycle (uuid : Nat → String) (sessions : List Session)
    (sendOK : Session × Frame → Bool) (backend_details : Registry)
    (eps : List (Endpoint × Resolution)) :
    Registry × List ((Session × Frame) × Bool) :=
  let details := buildRegistry eps
  let outcomes := (cycleEvents backend_details details).flatMap
    (fun ev => (broadcast_message uuid sessions ev.1 ev.2).map (fun d => (d, sendOK d)))
  (details, outcomes)

/-- The differ applied to two registry snapshots, exactly as
`poll_backends` runs it: it reads only the key sets of the two dicts. -/
def registryDiff (prev details : Registry) : List JValue × List JValue :=
  pollDiff (dkeys prev) (dkeys details)

/-- An inbound `SUBSCRIBE` control frame. -/
def subscribeFrame (sub topic : String) : Frame :=
  { command := "SUBSCRIBE",
    headers := [("id", sub), ("destination", topic)],
    body := JValue.null }

/-- An inbound `UNSUBSCRIBE` control frame. -/
def unsubscribeFrame (dest : String) : Frame :=
  { command := "UNSUBSCRIBE", headers := [("destination", dest)], body := JValue.null }

/-- An inbound `CONNECT` control frame. -/
def connectFrame : Frame :=
  { command := "CONNECT", headers := [], body := JValue.null }

/-! ## Claims -/

/-! ## Lemmas and claim theorems -/

@[simp] theorem dlookup_nil (key : κ) : dlookup ([] : PyDict κ α) key = none := rfl

@[simp] theorem dlookup_cons (k : κ) (v : α) (t : PyDict κ α) (key : κ) :
    dlookup ((k, v) :: t) key = if k = key then some v else dlookup t key := rfl

theorem dlookup_append (d₁ d₂ : PyDict κ α) (key : κ) :
    dlookup (d₁ ++ d₂) key =
      ((dlookup d₁ key).rec (dlookup d₂ key) (fun v => some v) : Option α) := by
  induction d₁ with
  | nil => simp
  | cons p t ih =>
    obtain ⟨k, v⟩ := p
    by_cases h : k = key <;> simp [h, ih]

theorem dlookup_dsetdefault_preserve (d : PyDict κ α) (k key : κ) (v w : α)
    (h : dlookup d key = some v) :
    dlookup (dsetdefault d k w) key = some v := by
  unfold dsetdefault
  rcases hd : dlookup d k with _ | u
  · simp only [hd, Option.isSome_none, Bool.false_eq_true, if_false]
    rw [dlookup_append, h]
  · simpa [hd] using h

theorem dlookup_dsetdefault_ne (d : PyDict κ α) (k key : κ) (v : α)
    (h : key ≠ k) :
    dlookup (dsetdefault d k v) key = dlookup d key := by
  unfold dsetdefault
  rcases hd : dlookup d k with _ | u
  · simp only [hd, Option.isSome_none, Bool.false_eq_true, if_false]
    rw [dlookup_append]
    rcases hk : dlookup d key with _ | w
    · show dlookup [(k, v)] key = none
      simp only [dlookup_cons, dlookup_nil]
      exact if_neg (fun hh => h hh.symm)
    · rfl
  · simp

theorem dlookup_dsetdefault_absent (d : PyDict κ α) (k : κ) (v : α)
    (h : dlookup d k = none) :
    dlookup (dsetdefault d k v) k = some v := by
  unfold dsetdefault
  simp only [h, Option.isSome_none, Bool.false_eq_true, if_false]
  rw [dlookup_append, h]
  simp [dlookup]

theorem dlookup_fillDefaults_preserve (d : Info) (key : String) (v : JValue)
    (h : dlookup d key = some v) :
    dlookup (fillDefaults d) key = some v := by
  unfold fillDefaults
  iterate 6 apply dlookup_dsetdefault_preserve
  exact h

theorem dlookup_fillDefaults_fills (d : Info) (key : String)
    (hf : key ∈ defaultFields) (h : dlookup d key = none) :
    dlookup (fillDefaults d) key = some (codeDefault key) := by
  unfold fillDefaults
  simp only [defaultFields, List.mem_cons, List.not_mem_nil, or_false] at hf
  rcases hf with rfl | rfl | rfl | rfl | rfl | rfl <;>
    simp [dlookup_dsetdefault_ne, dlookup_dsetdefault_absent, h, codeDefault]

theorem pollStep_eq (details : Registry) (ep : Endpoint × Resolution) :
    pollStep details ep =
      (match resolvedEntry ep with
       | none => details
       | some kv => dinsert details kv.1 kv.2) := by
  obtain ⟨e, r⟩ := ep
  cases r with
  | failed => rfl
  | unavailable => rfl
  | resolved info =>
    simp only [pollStep, resolvedEntry]
    cases dlookup info "id" <;> rfl

theorem foldl_pollStep_eq (eps : List (Endpoint × Resolution)) (d : Registry) :
    eps.foldl pollStep d = insertAll d (eps.filterMap resolvedEntry) := by
  induction eps generalizing d with
  | nil => rfl
  | cons ep t ih =>
    rw [List.foldl_cons, ih, List.filterMap_cons, pollStep_eq]
    cases h : resolvedEntry ep with
    | none => rfl
    | some kv => rfl

theorem dlookup_dinsert (d : PyDict κ α) (k key : κ) (v : α) :
    dlookup (dinsert d k v) key = if k = key then some v else dlookup d key := by
  induction d with
  | nil => rfl
  | cons p t ih =>
    obtain ⟨k', w⟩ := p
    by_cases h : k' = k
    · subst h
      by_cases hk : k' = key <;> simp [dinsert, hk]
    · by_cases hk : k' = key
      · subst hk
        have : ¬ k = k' := fun hh => h hh.symm
        simp [dinsert, h, this]
      · simp [dinsert, h, hk, ih]

theorem dlookup_insertAll_isSome (l : List (JValue × RegEntry)) (d : Registry)
    (key : JValue) :
    (dlookup (insertAll d l) key).isSome ↔
      (dlookup d key).isSome ∨ key ∈ l.map Prod.fst := by
  induction l generalizing d with
  | nil => simp [insertAll]
  | cons kv t ih =>
    obtain ⟨k, v⟩ := kv
    show (dlookup (insertAll (dinsert d k v) t) key).isSome ↔ _
    rw [ih]
    rw [dlookup_dinsert]
    by_cases h : k = key
    · subst h; simp
    · have : ¬ key = k := fun hh => h hh.symm
      simp [h, this]

theorem mem_pySetAdd (s : List κ) (x y : κ) :
    y ∈ pySetAdd s x ↔ y ∈ s ∨ y = x := by
  unfold pySetAdd
  by_cases h : x ∈ s
  · simp only [h, if_true]
    constructor
    · exact Or.inl
    · rintro (hy | rfl) <;> assumption
  · simp [h]

theorem pollDiff_eq_pair (prevKeys newKeys : List κ) :
    pollDiff prevKeys newKeys =
      (newKeys.foldl (fun a name => if name ∈ prevKeys then a else pySetAdd a name) [],
       newKeys.foldl (fun r name => if name ∈ r then r.erase name else r) prevKeys) := by
  suffices h : ∀ (n : List κ) (a r : List κ),
      n.foldl (fun ar name =>
          let removed := if name ∈ ar.2 then ar.2.erase name else ar.2
          let added := if name ∈ prevKeys then ar.1 else pySetAdd ar.1 name
          (added, removed)) (a, r) =
        (n.foldl (fun a name => if name ∈ prevKeys then a else pySetAdd a name) a,
         n.foldl (fun r name => if name ∈ r then r.erase name else r) r) by
    exact h newKeys [] prevKeys
  intro n
  induction n with
  | nil => intro a r; rfl
  | cons y t ih => intro a r; simp only [List.foldl_cons, ih]

theorem mem_addedFold (prevKeys : List κ) (n : List κ) (a : List κ) (x : κ) :
    x ∈ n.foldl (fun a name => if name ∈ prevKeys then a else pySetAdd a name) a ↔
      x ∈ a ∨ (x ∈ n ∧ x ∉ prevKeys) := by
  induction n generalizing a with
  | nil => simp
  | cons y t ih =>
    rw [List.foldl_cons, ih]
    by_cases h : y ∈ prevKeys
    · simp only [h, if_true, List.mem_cons]
      constructor
      · rintro (hx | hx)
        · exact Or.inl hx
        · exact Or.inr ⟨Or.inr hx.1, hx.2⟩
      · rintro (hx | ⟨rfl | hx, hnp⟩)
        · exact Or.inl hx
        · exact absurd h hnp
        · exact Or.inr ⟨hx, hnp⟩
    · simp only [h, if_false, mem_pySetAdd, List.mem_cons]
      constructor
      · rintro ((hx | rfl) | hx)
        · exact Or.inl hx
        · exact Or.inr ⟨Or.inl rfl, h⟩
        · exact Or.inr ⟨Or.inr hx.1, hx.2⟩
      · rintro (hx | ⟨rfl | hx, hnp⟩)
        · exact Or.inl (Or.inl hx)
        · exact Or.inl (Or.inr rfl)
        · exact Or.inr ⟨hx, hnp⟩

theorem nodup_removedFold (n : List κ) (r : List κ) (hr : r.Nodup) :
    (n.foldl (fun r name => if name ∈ r then r.erase name else r) r).Nodup := by
  induction n generalizing r with
  | nil => exact hr
  | cons y t ih =>
    rw [List.foldl_cons]
    apply ih
    by_cases h : y ∈ r
    · simp only [h, if_true]; exact hr.erase y
    · simpa [h] using hr

theorem mem_removedFold (n : List κ) (r : List κ) (hr : r.Nodup) (x : κ) :
    x ∈ n.foldl (fun r name => if name ∈ r then r.erase name else r) r ↔
      x ∈ r ∧ x ∉ n := by
  induction n generalizing r with
  | nil => simp
  | cons y t ih =>
    rw [List.foldl_cons]
    have hstep : ∀ z, z ∈ (if y ∈ r then r.erase y else r) ↔ z ∈ r ∧ z ≠ y := by
      intro z
      by_cases h : y ∈ r
      · simp only [h, if_true]
        rw [hr.mem_erase_iff]
        exact ⟨fun hz => ⟨hz.2, hz.1⟩, fun hz => ⟨hz.2, hz.1⟩⟩
      · simp only [h, if_false]
        constructor
        · intro hz
          refine ⟨hz, ?_⟩
          rintro rfl
          exact h hz
        · exact And.left
    have hnd : (if y ∈ r then r.erase y else r).Nodup := by
      by_cases h : y ∈ r
      · simp only [h, if_true]; exact hr.erase y
      · simpa [h] using hr
    rw [ih _ hnd, hstep]
    simp only [List.mem_cons]
    constructor
    · rintro ⟨⟨hx, hne⟩, hnt⟩
      exact ⟨hx, by rintro (rfl | hh); exact hne rfl; exact hnt hh⟩
    · rintro ⟨hx, hn⟩
      exact ⟨⟨hx, fun hh => hn (Or.inl hh)⟩, fun hh => hn (Or.inr hh)⟩

theorem mem_pollDiff_added (prevKeys newKeys : List κ) (x : κ) :
    x ∈ (pollDiff prevKeys newKeys).1 ↔ x ∈ newKeys ∧ x ∉ prevKeys := by
  rw [pollDiff_eq_pair]
  simpa using mem_addedFold prevKeys newKeys [] x

theorem mem_pollDiff_removed (prevKeys newKeys : List κ)
    (hp : prevKeys.Nodup) (x : κ) :
    x ∈ (pollDiff prevKeys newKeys).2 ↔ x ∈ prevKeys ∧ x ∉ newKeys := by
  rw [pollDiff_eq_pair]
  exact mem_removedFold newKeys prevKeys hp x

theorem mem_broadcastAux (uuid : Nat → String) (topic : String) (info : Info)
    (k : Nat) (l : List Session) (s : Session) (f : Frame) :
    (s, f) ∈ broadcastAux uuid topic info k l →
      s ∈ l ∧ ∃ sub, deliverCheck topic s = some sub ∧
        ∃ j, f = mkMessageFrame sub (uuid j) info := by
  induction l generalizing k with
  | nil => intro h; cases h
  | cons t rest ih =>
    intro h
    rcases hd : deliverCheck topic t with _ | sub
    · rw [broadcastAux, hd] at h
      obtain ⟨hmem, rest⟩ := ih k h
      exact ⟨List.mem_cons_of_mem _ hmem, rest⟩
    · rw [broadcastAux, hd] at h
      rcases List.mem_cons.mp h with heq | hmem
      · obtain ⟨rfl, rfl⟩ := Prod.mk.inj heq
        exact ⟨List.mem_cons_self _ _, sub, hd, k, rfl⟩
      · obtain ⟨hmem', rest⟩ := ih (k + 1) hmem
        exact ⟨List.mem_cons_of_mem _ hmem', rest⟩

theorem exists_mem_broadcastAux (uuid : Nat → String) (topic : String)
    (info : Info) (k : Nat) (l : List Session) (s : Session) :
    (∃ f, (s, f) ∈ broadcastAux uuid topic info k l) ↔
      s ∈ l ∧ (deliverCheck topic s).isSome := by
  constructor
  · rintro ⟨f, hf⟩
    obtain ⟨hmem, sub, hsub, _⟩ := mem_broadcastAux uuid topic info k l s f hf
    exact ⟨hmem, by rw [hsub]; rfl⟩
  · rintro ⟨hmem, hsome⟩
    rcases hd : deliverCheck topic s with _ | sub
    · rw [hd] at hsome; cases hsome
    · clear hsome
      induction l generalizing k with
      | nil => cases hmem
      | cons t rest ih =>
        rcases List.mem_cons.mp hmem with rfl | hmem'
        · exact ⟨mkMessageFrame sub (uuid k) info, by
            rw [broadcastAux, hd]; exact List.mem_cons_self _ _⟩
        · rcases hdt : deliverCheck topic t with _ | sub'
          · obtain ⟨f, hf⟩ := ih k hmem'
            exact ⟨f, by rw [broadcastAux, hdt]; exact hf⟩
          · obtain ⟨f, hf⟩ := ih (k + 1) hmem'
            exact ⟨f, by rw [broadcastAux, hdt]; exact List.mem_cons_of_mem _ hf⟩

theorem deliverCheck_eq_some (topic : String) (s : Session) (sub : String) :
    deliverCheck topic s = some sub ↔
      s.expired = false ∧ ∃ subs, s.subscriptions = some subs ∧
        dlookup subs topic = some sub := by
  unfold deliverCheck
  rcases hexp : s.expired with _ | _
  · rcases hsubs : s.subscriptions with _ | subs
    · simp
    · simp
  · simp

theorem deliverCheck_isSome (topic : String) (s : Session) :
    (deliverCheck topic s).isSome ↔
      s.expired = false ∧ ∃ subs, s.subscriptions = some subs ∧
        (dlookup subs topic).isSome := by
  rcases hd : deliverCheck topic s with _ | sub
  · unfold deliverCheck at hd
    rcases hexp : s.expired with _ | _
    · rcases hsubs : s.subscriptions with _ | subs
      · simp [hexp, hsubs] at hd ⊢
      · simp [hexp, hsubs] at hd ⊢
        exact hd
    · simp [hexp] at hd ⊢
  · have := (deliverCheck_eq_some topic s sub).mp hd
    obtain ⟨h1, subs, h2, h3⟩ := this
    simp [h1, h2, h3]

theorem mem_dkeys_dinsert (d : PyDict κ α) (k x : κ) (v : α) :
    x ∈ dkeys (dinsert d k v) ↔ x ∈ dkeys d ∨ x = k := by
  induction d with
  | nil => simp [dinsert, dkeys]
  | cons p t ih =>
    obtain ⟨k', w⟩ := p
    by_cases h : k' = k
    · subst h
      simp only [dinsert, if_true, dkeys, List.map_cons, List.mem_cons]
      constructor
      · rintro (rfl | hx)
        · exact Or.inr rfl
        · exact Or.inl (Or.inr hx)
      · rintro ((rfl | hx) | rfl)
        · exact Or.inl rfl
        · exact Or.inr hx
        · exact Or.inl rfl
    · simp only [dinsert, h, if_false, dkeys, List.map_cons, List.mem_cons] at ih ⊢
      rw [ih]
      tauto

theorem nodup_dkeys_dinsert (d : PyDict κ α) (k : κ) (v : α)
    (hd : (dkeys d).Nodup) : (dkeys (dinsert d k v)).Nodup := by
  induction d with
  | nil => simp [dinsert, dkeys]
  | cons p t ih =>
    obtain ⟨k', w⟩ := p
    simp only [dkeys, List.map_cons, List.nodup_cons] at hd
    by_cases h : k' = k
    · subst h
      simpa [dinsert, dkeys] using hd
    · simp only [dinsert, h, if_false, dkeys, List.map_cons, List.nodup_cons]
      refine ⟨?_, ih hd.2⟩
      rw [show List.map Prod.fst (dinsert t k v) = dkeys (dinsert t k v) from rfl,
        mem_dkeys_dinsert]
      rintro (hx | rfl)
      · exact hd.1 hx
      · exact h rfl

theorem nodup_dkeys_buildRegistry (eps : List (Endpoint × Resolution)) :
    (dkeys (buildRegistry eps)).Nodup := by
  suffices h : ∀ (l : List (Endpoint × Resolution)) (d : Registry),
      (dkeys d).Nodup → (dkeys (l.foldl pollStep d)).Nodup by
    exact h eps [] (by simp [dkeys])
  intro l
  induction l with
  | nil => exact fun d hd => hd
  | cons ep t ih =>
    intro d hd
    rw [List.foldl_cons]
    apply ih
    rw [pollStep_eq]
    cases h : resolvedEntry ep with
    | none => exact hd
    | some kv => exact nodup_dkeys_dinsert d kv.1 kv.2 hd

/-- C1: for every discovery cycle with previous registry `P` and new
registry `N` (each built by the resolution loop), the differ yields
`removed = ids(P) \ ids(N)` and `added = ids(N) \ ids(P)`; consequently
`added` and `removed` are disjoint, and every id in their union is present
in exactly one of the two snapshots. -/
theorem differ_set_difference (eps₁ eps₂ : List (Endpoint × Resolution)) :
    (∀ x, x ∈ (registryDiff (buildRegistry eps₁) (buildRegistry eps₂)).2 ↔
      x ∈ dkeys (buildRegistry eps₁) ∧ x ∉ dkeys (buildRegistry eps₂)) ∧
    (∀ x, x ∈ (registryDiff (buildRegistry eps₁) (buildRegistry eps₂)).1 ↔
      x ∈ dkeys (buildRegistry eps₂) ∧ x ∉ dkeys (buildRegistry eps₁)) ∧
    (∀ x, ¬(x ∈ (registryDiff (buildRegistry eps₁) (buildRegistry eps₂)).1 ∧
      x ∈ (registryDiff (buildRegistry eps₁) (buildRegistry eps₂)).2)) ∧
    (∀ x, x ∈ (registryDiff (buildRegistry eps₁) (buildRegistry eps₂)).1 ∨
        x ∈ (registryDiff (buildRegistry eps₁) (buildRegistry eps₂)).2 →
      Xor' (x ∈ dkeys (buildRegistry eps₁)) (x ∈ dkeys (buildRegistry eps₂))) := by
  have hp := nodup_dkeys_buildRegistry eps₁
  have hrem := fun x => mem_pollDiff_removed (dkeys (buildRegistry eps₁))
    (dkeys (buildRegistry eps₂)) hp x
  have hadd := fun x => mem_pollDiff_added (dkeys (buildRegistry eps₁))
    (dkeys (buildRegistry eps₂)) x
  refine ⟨hrem, hadd, ?_, ?_⟩
  · intro x ⟨h1, h2⟩
    rw [registryDiff, hadd x] at h1
    rw [registryDiff, hrem x] at h2
    exact h1.2 h2.1
  · intro x hx
    rcases hx with hx | hx
    · rw [registryDiff, hadd x] at hx
      exact Or.inr ⟨hx.1, hx.2⟩
    · rw [registryDiff, hrem x] at hx
      exact Or.inl ⟨hx.1, hx.2⟩

/-- C2: if the id set of the new snapshot equals the id set of the
previous one, both `added` and `removed` are empty, whatever the
descriptor contents of the ids present in both. -/
theorem differ_same_id_set (eps₁ eps₂ : List (Endpoint × Resolution))
    (h : (dkeys (buildRegistry eps₂)).toFinset =
      (dkeys (buildRegistry eps₁)).toFinset) :
    registryDiff (buildRegistry eps₁) (buildRegistry eps₂) = ([], []) := by
  have hmem : ∀ x, x ∈ dkeys (buildRegistry eps₂) ↔ x ∈ dkeys (buildRegistry eps₁) := by
    intro x
    rw [← List.mem_toFinset, ← List.mem_toFinset, h]
  have hp := nodup_dkeys_buildRegistry eps₁
  have hadd : (registryDiff (buildRegistry eps₁) (buildRegistry eps₂)).1 = [] := by
    rw [List.eq_nil_iff_forall_not_mem]
    intro x hx
    rw [registryDiff, mem_pollDiff_added] at hx
    exact hx.2 ((hmem x).mp hx.1)
  have hrem : (registryDiff (buildRegistry eps₁) (buildRegistry eps₂)).2 = [] := by
    rw [List.eq_nil_iff_forall_not_mem]
    intro x hx
    rw [registryDiff, mem_pollDiff_removed _ _ hp] at hx
    exact hx.2 ((hmem x).mpr hx.1)
  have hpair : registryDiff (buildRegistry eps₁) (buildRegistry eps₂) =
      ((registryDiff (buildRegistry eps₁) (buildRegistry eps₂)).1,
       (registryDiff (buildRegistry eps₁) (buildRegistry eps₂)).2) := rfl
  rw [hpair, hadd, hrem]

/-- C2 witness: two cycles over the same two ids, in swapped order and
with changed descriptor contents, diff to empty added/removed sets. -/
theorem differ_same_id_set_witness :
    registryDiff
      (buildRegistry [(⟨"A", "http://A/"⟩, .resolved [("id", JValue.str "a1"), ("zoom", JValue.int 1)]),
        (⟨"B", "http://B/"⟩, .resolved [("id", JValue.str "b1")])])
      (buildRegistry [(⟨"B", "http://B/"⟩, .resolved [("id", JValue.str "b1"), ("zoom", JValue.int 9)]),
        (⟨"A", "http://A/"⟩, .resolved [("id", JValue.str "a1"), ("visible", JValue.str "false")])]) =
      ([], []) :=
  differ_same_id_set _ _ (by decide)

/-- C3 counterexample: on an empty parsed info the resolver does not
produce the claimed defaults — `visible` is filled with the string
`"true"`, not the boolean `true`, and `center` is keyed
`latitude`/`longitude` with string values, so the claim's exact defaults
`visible=true`, `center={lat:0.0,long:0.0}` are wrong. -/
theorem resolver_defaults_counterexample :
    dlookup (fillDefaults []) "visible" = some (JValue.str "true") ∧
    ¬ dlookup (fillDefaults []) "visible" = some (JValue.bool true) ∧
    dlookup (fillDefaults []) "center" =
      some (JValue.obj [("latitude", JValue.str "0.0"), ("longitude", JValue.str "0.0")]) ∧
    ¬ (JValue.obj [("latitude", JValue.str "0.0"), ("longitude", JValue.str "0.0")] =
      JValue.obj [("lat", JValue.str "0.0"), ("long", JValue.str "0.0")]) := by
  refine ⟨?_, ?_, ?_, ?_⟩ <;> decide

/-- C3 (amended): the resolver's default-filling of a successfully parsed
info object is per-field — every supplied field keeps its value, and every
absent field among center, zoom, maxZoom, type, visible, scope receives
exactly the source's default `center={latitude:"0.0",longitude:"0.0"}`,
`zoom=1`, `maxZoom=1`, `type="cluster"`, `visible="true"`, `scope="all"`;
in particular an input supplying only `zoom` keeps that zoom and gets
defaults for all the other fields. -/
theorem resolver_defaults_per_field (body : Info) :
    get_backend_info 200 body = some (fillDefaults body) ∧
    (∀ key v, dlookup body key = some v → dlookup (fillDefaults body) key = some v) ∧
    (∀ fld, fld ∈ defaultFields → dlookup body fld = none →
      dlookup (fillDefaults body) fld = some (codeDefault fld)) := by
  refine ⟨rfl, ?_, ?_⟩
  · intro key v h
    exact dlookup_fillDefaults_preserve body key v h
  · intro fld hfld h
    exact dlookup_fillDefaults_fills body fld hfld h

/-- C3 witness: an info supplying only `zoom = 7` keeps that zoom and
receives the source defaults for `visible` and `scope`. -/
theorem resolver_defaults_per_field_witness :
    dlookup (fillDefaults [("zoom", JValue.int 7)]) "zoom" = some (JValue.int 7) ∧
    dlookup (fillDefaults [("zoom", JValue.int 7)]) "visible" = some (JValue.str "true") ∧
    dlookup (fillDefaults [("zoom", JValue.int 7)]) "scope" = some (JValue.str "all") := by
  refine ⟨?_, ?_, ?_⟩
  · exact (resolver_defaults_per_field [("zoom", JValue.int 7)]).2.1 "zoom"
      (JValue.int 7) (by decide)
  · exact (resolver_defaults_per_field [("zoom", JValue.int 7)]).2.2 "visible"
      (by decide) (by decide)
  · exact (resolver_defaults_per_field [("zoom", JValue.int 7)]).2.2 "scope"
      (by decide) (by decide)

/-- C4: in every discovery cycle, the new registry holds exactly the
entries of the successfully resolved, id-bearing backends, keyed by their
id (it equals the plain insertion of those entries), and dropping an
endpoint that failed, was unavailable, or lacked an id leaves the registry
of the remaining endpoints untouched. -/
theorem registry_excludes_failures (l r : List (Endpoint × Resolution))
    (e : Endpoint × Resolution) (he : resolvedEntry e = none) :
    buildRegistry (l ++ e :: r) = buildRegistry (l ++ r) ∧
    (∀ eps : List (Endpoint × Resolution),
      buildRegistry eps = insertAll [] (eps.filterMap resolvedEntry)) ∧
    (∀ (eps : List (Endpoint × Resolution)) (key : JValue),
      (dlookup (buildRegistry eps) key).isSome ↔
        key ∈ (eps.filterMap resolvedEntry).map Prod.fst) := by
  refine ⟨?_, ?_, ?_⟩
  · show (l ++ e :: r).foldl pollStep [] = (l ++ r).foldl pollStep []
    rw [List.foldl_append, List.foldl_append, List.foldl_cons,
      pollStep_eq, he]
  · intro eps
    exact foldl_pollStep_eq eps []
  · intro eps key
    show (dlookup (eps.foldl pollStep []) key).isSome ↔ _
    rw [foldl_pollStep_eq, dlookup_insertAll_isSome]
    simp [dlookup]

/-- C4 witness: with backend `B` failing between successful `A` and `C`,
the registry equals the one built without `B` and still contains `C`. -/
theorem registry_excludes_failures_witness :
    buildRegistry
        [(⟨"A", "http://A/"⟩, .resolved [("id", JValue.str "a1")]),
         (⟨"B", "http://B/"⟩, .failed),
         (⟨"C", "http://C/"⟩, .resolved [("id", JValue.str "c1")])] =
      buildRegistry
        [(⟨"A", "http://A/"⟩, .resolved [("id", JValue.str "a1")]),
         (⟨"C", "http://C/"⟩, .resolved [("id", JValue.str "c1")])] ∧
    (dlookup
      (buildRegistry
        [(⟨"A", "http://A/"⟩, .resolved [("id", JValue.str "a1")]),
         (⟨"B", "http://B/"⟩, .failed),
         (⟨"C", "http://C/"⟩, .resolved [("id", JValue.str "c1")])])
      (JValue.str "c1")).isSome := by
  constructor
  · exact (registry_excludes_failures
      [(⟨"A", "http://A/"⟩, .resolved [("id", JValue.str "a1")])]
      [(⟨"C", "http://C/"⟩, .resolved [("id", JValue.str "c1")])]
      (⟨"B", "http://B/"⟩, .failed) rfl).1
  · exact ((registry_excludes_failures
      [(⟨"A", "http://A/"⟩, .resolved [("id", JValue.str "a1")])]
      [(⟨"C", "http://C/"⟩, .resolved [("id", JValue.str "c1")])]
      (⟨"B", "http://B/"⟩, .failed) rfl).2.2 _ (JValue.str "c1")).mpr (by decide)

theorem get_append_partition {α : Type} (P Q : α → Prop) (A B : List α)
    (hA : ∀ e ∈ A, P e) (hB : ∀ e ∈ B, Q e)
    (hPQ : ∀ e, P e → Q e → False)
    (i j : Nat) (hi : i < (A ++ B).length) (hj : j < (A ++ B).length)
    (hPi : P ((A ++ B).get ⟨i, hi⟩)) (hQj : Q ((A ++ B).get ⟨j, hj⟩)) :
    i < j := by
  have hiA : i < A.length := by
    by_contra hc
    push_neg at hc
    have hmem : (A ++ B).get ⟨i, hi⟩ ∈ B := by
      rw [List.get_eq_getElem, List.getElem_append_right hc]
      exact List.getElem_mem _
    exact hPQ _ hPi (hB _ hmem)
  have hjA : A.length ≤ j := by
    by_contra hc
    push_neg at hc
    have hmem : (A ++ B).get ⟨j, hj⟩ ∈ A := by
      rw [List.get_eq_getElem, List.getElem_append_left hc]
      exact List.getElem_mem _
    exact hPQ _ (hA _ hmem) hQj
  exact lt_of_lt_of_le hiA hjA

/-- C5: within one discovery cycle, every `/topic/remove` broadcast comes
before every `/topic/add` broadcast in the event sequence the cycle
issues. -/
theorem remove_broadcast_before_add (prev details : Registry) (i j : Nat)
    (hi : i < (cycleEvents prev details).length)
    (hj : j < (cycleEvents prev details).length)
    (hrem : ((cycleEvents prev details).get ⟨i, hi⟩).1 = "/topic/remove")
    (hadd : ((cycleEvents prev details).get ⟨j, hj⟩).1 = "/topic/add") :
    i < j := by
  have hi' := hi
  have hj' := hj
  rw [cycleEvents] at hi' hj'
  refine get_append_partition (fun e => e.1 = "/topic/remove")
    (fun e => e.1 = "/topic/add") _ _ ?_ ?_ ?_ i j hi' hj' ?_ ?_
  · intro e he
    rw [List.mem_filterMap] at he
    obtain ⟨k, _, hk⟩ := he
    rcases hl : dlookup prev k with _ | entry
    · rw [hl] at hk; cases hk
    · rw [hl] at hk
      cases hk
      rfl
  · intro e he
    rw [List.mem_filterMap] at he
    obtain ⟨k, _, hk⟩ := he
    rcases hl : dlookup details k with _ | entry
    · rw [hl] at hk; cases hk
    · rw [hl] at hk
      cases hk
      rfl
  · intro e h1 h2
    rw [h1] at h2
    exact absurd h2 (by decide)
  · exact hrem
  · exact hadd

/-- C5 witness: a cycle that removes id `a1` and adds id `b1` issues the
remove event at index 0 and the add event at index 1, and `0 < 1`. -/
theorem remove_broadcast_before_add_witness :
    (0 : Nat) < 1 ∧
    ((cycleEvents [(JValue.str "a1", ("A", "http://A/", [("id", JValue.str "a1")]))]
        [(JValue.str "b1", ("B", "http://B/", [("id", JValue.str "b1")]))]).get
      ⟨0, by decide⟩).1 = "/topic/remove" ∧
    ((cycleEvents [(JValue.str "a1", ("A", "http://A/", [("id", JValue.str "a1")]))]
        [(JValue.str "b1", ("B", "http://B/", [("id", JValue.str "b1")]))]).get
      ⟨1, by decide⟩).1 = "/topic/add" := by
  refine ⟨?_, by decide, by decide⟩
  exact remove_broadcast_before_add
    [(JValue.str "a1", ("A", "http://A/", [("id", JValue.str "a1")]))]
    [(JValue.str "b1", ("B", "http://B/", [("id", JValue.str "b1")]))]
    0 1 (by decide) (by decide) (by decide) (by decide)

/-- C6: a broadcast delivers a `MESSAGE` frame to a session exactly when
the session is among the manager's sessions, is not expired, has a
`subscriptions` dict (the `CONNECT` handshake ran), and that dict contains
the topic; in particular a session whose dict lacks `/topic/remove` never
receives a frame from a `/topic/remove` broadcast, whatever else is
broadcast. -/
theorem broadcast_selectivity (uuid : Nat → String) (sessions : List Session)
    (topic : String) (info : Info) (s : Session) :
    ((∃ f, (s, f) ∈ broadcast_message uuid sessions topic info) ↔
      (s ∈ sessions ∧ s.expired = false ∧
        ∃ subs, s.subscriptions = some subs ∧ (dlookup subs topic).isSome)) ∧
    (∀ f, (s, f) ∈ broadcast_message uuid sessions topic info →
      f.command = "MESSAGE") ∧
    (∀ (info' : Info) (subs : PyDict String String),
      s.subscriptions = some subs → dlookup subs "/topic/remove" = none →
      ¬ ∃ f, (s, f) ∈ broadcast_message uuid sessions "/topic/remove" info') := by
  refine ⟨?_, ?_, ?_⟩
  · rw [broadcast_message, exists_mem_broadcastAux, deliverCheck_isSome]
  · intro f hf
    obtain ⟨_, sub, _, j, rfl⟩ :=
      mem_broadcastAux uuid topic info 0 sessions s f hf
    rfl
  · intro info' subs hsubs habs hex
    rw [broadcast_message, exists_mem_broadcastAux, deliverCheck_isSome] at hex
    obtain ⟨_, _, subs', hsubs', hsome⟩ := hex
    rw [hsubs] at hsubs'
    cases hsubs'
    rw [habs] at hsome
    cases hsome

/-- C6 witness: with a live session subscribed only to `/topic/add`, an
expired one and an unconnected one, the add-subscriber receives from a
`/topic/add` broadcast and nothing from a `/topic/remove` broadcast. -/
theorem broadcast_selectivity_witness :
    (∃ f, (⟨"s1", false, some [("/topic/add", "sub-1")]⟩, f) ∈
      broadcast_message (fun _ => "uuid-0")
        [⟨"s1", false, some [("/topic/add", "sub-1")]⟩,
         ⟨"s2", true, some [("/topic/add", "sub-2")]⟩,
         ⟨"s3", false, none⟩]
        "/topic/add" [("id", JValue.str "a1")]) ∧
    ¬ (∃ f, (⟨"s1", false, some [("/topic/add", "sub-1")]⟩, f) ∈
      broadcast_message (fun _ => "uuid-0")
        [⟨"s1", false, some [("/topic/add", "sub-1")]⟩,
         ⟨"s2", true, some [("/topic/add", "sub-2")]⟩,
         ⟨"s3", false, none⟩]
        "/topic/remove" [("id", JValue.str "a1")]) := by
  constructor
  · exact (broadcast_selectivity (fun _ => "uuid-0")
      [⟨"s1", false, some [("/topic/add", "sub-1")]⟩,
       ⟨"s2", true, some [("/topic/add", "sub-2")]⟩,
       ⟨"s3", false, none⟩]
      "/topic/add" [("id", JValue.str "a1")]
      ⟨"s1", false, some [("/topic/add", "sub-1")]⟩).1.mpr
      ⟨by decide, rfl, [("/topic/add", "sub-1")], rfl, by decide⟩
  · exact (broadcast_selectivity (fun _ => "uuid-0")
      [⟨"s1", false, some [("/topic/add", "sub-1")]⟩,
       ⟨"s2", true, some [("/topic/add", "sub-2")]⟩,
       ⟨"s3", false, none⟩]
      "/topic/add" [("id", JValue.str "a1")]
      ⟨"s1", false, some [("/topic/add", "sub-1")]⟩).2.2
      [("id", JValue.str "a1")] [("/topic/add", "sub-1")] rfl (by decide)

/-- C7: every delivered `MESSAGE` frame carries in its `subscription`
header exactly the id recorded in the receiving session's own
`subscriptions` dict for the topic, and processing that session's
`SUBSCRIBE` frame is what records the id supplied in the frame's `id`
header under its `destination` topic. -/
theorem subscription_header_routing (uuid : Nat → String)
    (sessions : List Session) (topic : String) (info : Info) :
    (∀ s f, (s, f) ∈ broadcast_message uuid sessions topic info →
      ∃ subs sub, s.subscriptions = some subs ∧
        dlookup subs topic = some sub ∧
        dlookup f.headers "subscription" = some sub) ∧
    (∀ (s : Session) (subs0 : PyDict String String) (sub : String),
      s.subscriptions = some subs0 →
      handleMessage s (subscribeFrame sub topic) =
        .ok ({ s with subscriptions := some (dinsert subs0 topic sub) }, []) ∧
      dlookup (dinsert subs0 topic sub) topic = some sub) := by
  constructor
  · intro s f hf
    obtain ⟨_, sub, hchk, j, rfl⟩ :=
      mem_broadcastAux uuid topic info 0 sessions s f hf
    obtain ⟨_, subs, hsubs, hlook⟩ := (deliverCheck_eq_some topic s sub).mp hchk
    exact ⟨subs, sub, hsubs, hlook, rfl⟩
  · intro s subs0 sub hsubs
    obtain ⟨sid, sexp, ssubs⟩ := s
    have hs : ssubs = some subs0 := hsubs
    subst hs
    exact ⟨rfl, by rw [dlookup_dinsert, if_pos rfl]⟩

/-- C7 witness: two live sessions subscribed to `/topic/add` with ids
`sub-1` and `sub-2` each receive a frame whose `subscription` header is
their own id. -/
theorem subscription_header_routing_witness :
    dlookup (mkMessageFrame "sub-1" "uuid-0" [("id", JValue.str "a1")]).headers
        "subscription" = some "sub-1" ∧
    dlookup (mkMessageFrame "sub-2" "uuid-1" [("id", JValue.str "a1")]).headers
        "subscription" = some "sub-2" ∧
    (∃ subs sub, (⟨"s2", false, some [("/topic/add", "sub-2")]⟩ : Session).subscriptions
        = some subs ∧
      dlookup subs "/topic/add" = some sub ∧
      dlookup (mkMessageFrame "sub-2" "uuid-1" [("id", JValue.str "a1")]).headers
        "subscription" = some sub) := by
  refine ⟨by decide, by decide, ?_⟩
  exact (subscription_header_routing (fun k => if k = 0 then "uuid-0" else "uuid-1")
      [⟨"s1", false, some [("/topic/add", "sub-1")]⟩,
       ⟨"s2", false, some [("/topic/add", "sub-2")]⟩]
      "/topic/add" [("id", JValue.str "a1")]).1
    ⟨"s2", false, some [("/topic/add", "sub-2")]⟩
    (mkMessageFrame "sub-2" "uuid-1" [("id", JValue.str "a1")])
    (by decide)

/-- C8: processing an `UNSUBSCRIBE` frame whose `destination` is not in
the session's subscriptions raises `KeyError` — not a silent no-op — and
the discarded frame leaves the whole session list, in particular every
other session's subscription state, unchanged, with nothing sent. -/
theorem unsubscribe_absent_topic (sessions : List Session) (i : Nat)
    (s : Session) (subs : PyDict String String) (dest : String)
    (hs : sessions[i]? = some s)
    (hsubs : s.subscriptions = some subs)
    (habs : dlookup subs dest = none) :
    handleMessage s (unsubscribeFrame dest) = .error (.keyError dest) ∧
    stepManager sessions i (unsubscribeFrame dest) = (sessions, []) := by
  have hmain : handleMessage s (unsubscribeFrame dest) = .error (.keyError dest) := by
    simp [handleMessage, unsubscribeFrame, hsubs, habs]
  refine ⟨hmain, ?_⟩
  simp [stepManager, hs, hmain]

/-- C8 witness: session `s1` (subscribed to nothing) unsubscribing
`/topic/add` raises `KeyError('/topic/add')` and leaves both sessions as
they were. -/
theorem unsubscribe_absent_topic_witness :
    handleMessage ⟨"s1", false, some []⟩ (unsubscribeFrame "/topic/add") =
      .error (.keyError "/topic/add") ∧
    stepManager
        [⟨"s1", false, some []⟩, ⟨"s2", false, some [("/topic/add", "sub-2")]⟩]
        0 (unsubscribeFrame "/topic/add") =
      ([⟨"s1", false, some []⟩, ⟨"s2", false, some [("/topic/add", "sub-2")]⟩], []) :=
  unsubscribe_absent_topic
    [⟨"s1", false, some []⟩, ⟨"s2", false, some [("/topic/add", "sub-2")]⟩]
    0 ⟨"s1", false, some []⟩ [] "/topic/add" rfl rfl rfl

/-- C9: the registry swap of cycle N commits the fully built new snapshot
whatever the sessions, message ids and per-delivery outcomes are — a
failed delivery neither rolls back nor blocks it — and cycle N+1's differ
and broadcasts are baselined on exactly that committed snapshot. -/
theorem registry_swap_committed (uuid uuid' : Nat → String)
    (sessions sessions' : List Session)
    (sendOK sendOK' : Session × Frame → Bool) (st : Registry)
    (eps eps' : List (Endpoint × Resolution)) :
    (runCycle uuid sessions sendOK st eps).1 = buildRegistry eps ∧
    (runCycle uuid sessions sendOK st eps).1 =
      (runCycle uuid' sessions' sendOK' st eps).1 ∧
    (runCycle uuid' sessions' sendOK'
        (runCycle uuid sessions sendOK st eps).1 eps').2 =
      (cycleEvents (buildRegistry eps) (buildRegistry eps')).flatMap
        (fun ev => (broadcast_message uuid' sessions' ev.1 ev.2).map
          (fun d => (d, sendOK' d))) :=
  ⟨rfl, rfl, rfl⟩

/-- C10: a `CONNECT` frame on a session that already completed the
handshake sends a fresh `CONNECTED` frame and resets the session's
subscriptions dict to empty, silently discarding every recorded
subscription. -/
theorem connect_resets_subscriptions (s : Session)
    (subs : PyDict String String) (h : s.subscriptions = some subs) :
    handleMessage s connectFrame =
      .ok ({ s with subscriptions := some ([] : PyDict String String) },
        [{ command := "CONNECTED", headers := [("session", s.id)],
           body := JValue.null }]) ∧
    (∀ topic, dlookup ([] : PyDict String String) topic = none) :=
  ⟨rfl, fun _ => rfl⟩

/-- C10 witness: a session holding one subscription is reset to an empty
dict by a second `CONNECT`, and a `CONNECTED` frame is sent. -/
theorem connect_resets_subscriptions_witness :
    handleMessage ⟨"s1", false, some [("/topic/add", "sub-1")]⟩ connectFrame =
      .ok (⟨"s1", false, some []⟩,
        [⟨"CONNECTED", [("session", "s1")], JValue.null⟩]) :=
  (connect_resets_subscriptions ⟨"s1", false, some [("/topic/add", "sub-1")]⟩
    [("/topic/add", "sub-1")] rfl).1

end NbIata

